import Mathlib

/-!
Shallow embedding of the Norwegian TIN validator (src/lib.rs of
khopland/norwegian-tin-validator).

Input strings are modelled as lists of byte values (`List Nat`); the
digit sequence produced by the charset gate is a list of digit values
0-9.  All machine integers of the source (u8, u16, u32) stay well within
their ranges on every reachable path, so plain `Nat` arithmetic with
truncated subtraction coincides with the source's arithmetic; the
no-underflow facts are proved explicitly below.
-/

/-- The four person categories of the source (`enum PersonKind`). -/
inductive PersonKind where
  | Normal
  | HNumber
  | Anonymous
  | Synthetic
  deriving DecidableEq

/-- A validated 11-digit personal number (`struct PersonNumber`). -/
structure PersonNumber where
  kind : PersonKind
  value : List Nat
  deriving DecidableEq

/-- A validated 9-digit organization number (`struct OrgNumber`). -/
structure OrgNumber where
  value : List Nat
  deriving DecidableEq

/-- The success variants (`enum NorwegianTin`). -/
inductive NorwegianTin where
  | FNumber (fnr : PersonNumber)
  | DNumber (dnr : PersonNumber)
  | OrgNumber (org : OrgNumber)
  deriving DecidableEq

/-- The four error kinds (`enum NorwegianTinError`). -/
inductive NorwegianTinError where
  | InvalidLength
  | NonNumericValue
  | InvalidChecksum
  | InvalidDate
  deriving DecidableEq

/-- Decidable equality of results, for concrete evaluations. -/
instance {ε α : Type} [DecidableEq ε] [DecidableEq α] : DecidableEq (Except ε α) := fun a b =>
  match a, b with
  | .ok x, .ok y =>
    if h : x = y then .isTrue (by rw [h]) else .isFalse (fun he => h (Except.ok.inj he))
  | .error x, .error y =>
    if h : x = y then .isTrue (by rw [h]) else .isFalse (fun he => h (Except.error.inj he))
  | .ok _, .error _ => .isFalse (fun he => Except.noConfusion he)
  | .error _, .ok _ => .isFalse (fun he => Except.noConfusion he)

/-- Weights of the first personal checksum pass. -/
def SEQUENCE_FIRST_CHECKSUM_DIGITS : List Nat := [3, 7, 6, 1, 8, 9, 4, 5, 2]

/-- Weights of the second personal checksum pass. -/
def SEQUENCE_SECOND_CHECKSUM_DIGITS : List Nat := [5, 4, 3, 2, 7, 6, 5, 4, 3, 2]

/-- Weights of the organization checksum. -/
def SEQUENCE_ORG_CHECKSUM_DIGITS : List Nat := [3, 2, 7, 6, 5, 4, 3, 2]

def TIN_LENGTH : Nat := 11

def ORG_LENGTH : Nat := 9

/-- The byte-to-digit loop of `parse`: each byte must lie in ASCII
`'0'..'9'` (48..57), yielding digit `b - 48`; any out-of-range byte
aborts (the `NonNumericValue` early return). -/
def toDigits : List Nat → Option (List Nat)
  | [] => some []
  | b :: rest =>
    if b < 48 ∨ 57 < b then none
    else
      match toDigits rest with
      | none => none
      | some ds => some ((b - 48) :: ds)

/-- `NorwegianTin::calculate_checksum` up to its matcher: the weighted
sum of `weights.zip digits` reduced modulo 11 (the sum fits u32 in the
source; here it is a plain `Nat`). -/
def calculate_checksum (digits weights : List Nat) : Nat :=
  ((weights.zip digits).map (fun p => p.1 * p.2)).sum % 11

/-- `NorwegianTin::check_kind`: category from the month field's tens
digit, bands `0..=1`, `4..=5`, `6..=7`, `8..=9`, otherwise `InvalidDate`. -/
def check_kind (month : Nat) : Except NorwegianTinError PersonKind :=
  if month ≤ 1 then .ok .Normal
  else if 4 ≤ month ∧ month ≤ 5 then .ok .HNumber
  else if 6 ≤ month ∧ month ≤ 7 then .ok .Anonymous
  else if 8 ≤ month ∧ month ≤ 9 then .ok .Synthetic
  else .error .InvalidDate

/-- `PersonKind::get_base_month`: subtract the category's decade offset
(0/40/60/80) from the raw month field (u8 subtraction in the source;
truncated `Nat` subtraction here — no-underflow is proved below). -/
def PersonKind.get_base_month (k : PersonKind) (month : Nat) : Nat :=
  match k with
  | .Normal => month
  | .HNumber => month - 40
  | .Anonymous => month - 60
  | .Synthetic => month - 80

/-- The month-offset each category encodes (the constants subtracted in
`PersonKind::get_base_month`). -/
def kind_offset : PersonKind → Nat
  | .Normal => 0
  | .HNumber => 40
  | .Anonymous => 60
  | .Synthetic => 80

/-- The day-count table inside `NorwegianTin::is_valid_date`; `none`
models the `_ => return false` arm of the Rust match. -/
def days_in_month (month year : Nat) : Option Nat :=
  match month with
  | 1 | 3 | 5 | 7 | 8 | 10 | 12 => some 31
  | 4 | 6 | 9 | 11 => some 30
  | 2 => some (if year % 4 = 0 then 29 else 28)
  | _ => none

/-- `NorwegianTin::is_valid_date`. -/
def is_valid_date (day month year : Nat) : Bool :=
  if month = 0 ∨ 12 < month ∨ day = 0 ∨ 100 ≤ year then false
  else
    match days_in_month month year with
    | none => false
    | some d => decide (day ≤ d)

/-- The acceptance condition of the first personal checksum pass (the
matcher closure handed to `calculate_checksum` over digits 0-8): the
remainder plus digit 9, modulo 11, must fall in `0..=3`. -/
def first_pass (ds : List Nat) : Prop :=
  (calculate_checksum (ds.take 9) SEQUENCE_FIRST_CHECKSUM_DIGITS + ds.getD 9 0) % 11 ≤ 3

instance (ds : List Nat) : Decidable (first_pass ds) :=
  Nat.decLe ((calculate_checksum (ds.take 9) SEQUENCE_FIRST_CHECKSUM_DIGITS + ds.getD 9 0) % 11) 3

/-- The acceptance condition of the second personal checksum pass (the
matcher closure over digits 0-9): the remainder plus digit 10, modulo
11, must be exactly 0. -/
def second_pass (ds : List Nat) : Prop :=
  (calculate_checksum (ds.take 10) SEQUENCE_SECOND_CHECKSUM_DIGITS + ds.getD 10 0) % 11 = 0

instance (ds : List Nat) : Decidable (second_pass ds) :=
  Nat.decEq ((calculate_checksum (ds.take 10) SEQUENCE_SECOND_CHECKSUM_DIGITS + ds.getD 10 0) % 11) 0

/-- `NorwegianTin::parse`, stage for stage: length gate, digit
extraction, organization path (length 9) or the two personal checksum
passes, category lookup, date reconstruction and band dispatch on the
leading day digit. -/
def parse (bs : List Nat) : Except NorwegianTinError NorwegianTin :=
  if bs.length ≠ TIN_LENGTH ∧ bs.length ≠ ORG_LENGTH then .error .InvalidLength
  else
    match toDigits bs with
    | none => .error .NonNumericValue
    | some digits =>
      if bs.length = ORG_LENGTH then
        let r := calculate_checksum (digits.take 8) SEQUENCE_ORG_CHECKSUM_DIGITS
        if (11 - r) % 11 = 10 then .error .InvalidChecksum
        else if (11 - r) % 11 = digits.getD 8 0 then
          .ok (.OrgNumber ⟨digits⟩)
        else .error .InvalidChecksum
      else
        if first_pass digits then
          if second_pass digits then
            match check_kind (digits.getD 2 0) with
            | .error e => .error e
            | .ok kind =>
              let day := digits.getD 0 0 * 10 + digits.getD 1 0
              let month := kind.get_base_month (digits.getD 2 0 * 10 + digits.getD 3 0)
              let year := digits.getD 4 0 * 10 + digits.getD 5 0
              if digits.getD 0 0 ≤ 3 then
                if is_valid_date day month year then
                  .ok (.FNumber ⟨kind, digits⟩)
                else .error .InvalidDate
              else if digits.getD 0 0 ≤ 7 then
                if is_valid_date (day - 40) month year then
                  .ok (.DNumber ⟨kind, digits⟩)
                else .error .InvalidDate
              else .error .InvalidDate
          else .error .InvalidChecksum
        else .error .InvalidChecksum

/-- `NorwegianTin::get_value`: the stored digit sequence. -/
def NorwegianTin.get_value : NorwegianTin → List Nat
  | .FNumber fnr => fnr.value
  | .DNumber dnr => dnr.value
  | .OrgNumber org => org.value

/-- `NorwegianTin::get_kind`: the category; organization numbers report
`Normal`. -/
def NorwegianTin.get_kind : NorwegianTin → PersonKind
  | .FNumber fnr => fnr.kind
  | .DNumber dnr => dnr.kind
  | .OrgNumber _ => PersonKind.Normal

/-- The `Into<String>` impl: map each stored digit back to its ASCII
byte. -/
def into_string (t : NorwegianTin) : List Nat :=
  t.get_value.map (fun d => d + 48)

/-! Helper lemmas about the digit-extraction loop. -/

theorem toDigits_eq_some (bs : List Nat) (h : ∀ b ∈ bs, 48 ≤ b ∧ b ≤ 57) :
    toDigits bs = some (bs.map (fun b => b - 48)) := by
  induction bs with
  | nil => rfl
  | cons b rest ih =>
    have hb := h b (List.mem_cons_self b rest)
    have hrest := ih (fun x hx => h x (List.mem_cons_of_mem b hx))
    unfold toDigits
    rw [if_neg (by omega), hrest]
    rfl

theorem toDigits_eq_none (bs : List Nat) (h : ∃ b ∈ bs, b < 48 ∨ 57 < b) :
    toDigits bs = none := by
  induction bs with
  | nil => simp at h
  | cons b rest ih =>
    unfold toDigits
    by_cases hb : b < 48 ∨ 57 < b
    · rw [if_pos hb]
    · rw [if_neg hb]
      obtain ⟨x, hx, hxr⟩ := h
      rcases List.mem_cons.mp hx with rfl | hx2
      · exact absurd hxr hb
      · rw [ih ⟨x, hx2, hxr⟩]

theorem toDigits_some_map (bs ds : List Nat) (h : toDigits bs = some ds) :
    ds = bs.map (fun b => b - 48) ∧ ∀ b ∈ bs, 48 ≤ b ∧ b ≤ 57 := by
  induction bs generalizing ds with
  | nil =>
    unfold toDigits at h
    simp only [Option.some.injEq] at h
    subst h
    simp
  | cons b rest ih =>
    unfold toDigits at h
    by_cases hb : b < 48 ∨ 57 < b
    · rw [if_pos hb] at h
      exact absurd h (by simp)
    · rw [if_neg hb] at h
      cases hr : toDigits rest with
      | none => rw [hr] at h; simp at h
      | some ds2 =>
        rw [hr] at h
        simp only [Option.some.injEq] at h
        obtain ⟨h1, h2⟩ := ih ds2 hr
        subst h
        refine ⟨by simp [h1], ?_⟩
        intro x hx
        rcases List.mem_cons.mp hx with rfl | hx2
        · omega
        · exact h2 x hx2

theorem toDigits_map_back (bs ds : List Nat) (h : toDigits bs = some ds) :
    ds.map (fun d => d + 48) = bs := by
  obtain ⟨h1, h2⟩ := toDigits_some_map bs ds h
  subst h1
  rw [List.map_map]
  calc bs.map ((fun d => d + 48) ∘ fun b => b - 48)
      = bs.map id := List.map_congr_left (fun b hb => by
        have := h2 b hb
        simp
        omega)
    _ = bs := List.map_id bs

theorem toDigits_le9 (bs ds : List Nat) (h : toDigits bs = some ds) :
    ∀ d ∈ ds, d ≤ 9 := by
  obtain ⟨h1, h2⟩ := toDigits_some_map bs ds h
  subst h1
  intro d hd
  obtain ⟨b, hb, rfl⟩ := List.mem_map.mp hd
  have := h2 b hb
  omega

theorem toDigits_length (bs ds : List Nat) (h : toDigits bs = some ds) :
    ds.length = bs.length := by
  obtain ⟨h1, _⟩ := toDigits_some_map bs ds h
  subst h1
  simp

/-! Helper lemmas unfolding `parse` stage by stage. -/

theorem parse_len_err (bs : List Nat) (h11 : bs.length ≠ 11) (h9 : bs.length ≠ 9) :
    parse bs = .error .InvalidLength := by
  unfold parse
  rw [if_pos ⟨h11, h9⟩]

theorem parse_nonnum_err (bs : List Nat) (hlen : bs.length = 11 ∨ bs.length = 9)
    (hds : toDigits bs = none) : parse bs = .error .NonNumericValue := by
  unfold parse
  simp only [TIN_LENGTH, ORG_LENGTH]
  rw [if_neg (by omega), hds]

theorem parse_nine (bs ds : List Nat) (hlen : bs.length = 9)
    (hds : toDigits bs = some ds) :
    parse bs =
      (if (11 - calculate_checksum (ds.take 8) SEQUENCE_ORG_CHECKSUM_DIGITS) % 11 = 10 then
        .error .InvalidChecksum
      else if (11 - calculate_checksum (ds.take 8) SEQUENCE_ORG_CHECKSUM_DIGITS) % 11
          = ds.getD 8 0 then
        .ok (.OrgNumber ⟨ds⟩)
      else .error .InvalidChecksum) := by
  unfold parse
  simp only [TIN_LENGTH, ORG_LENGTH]
  rw [if_neg (by omega), hds]
  dsimp only
  rw [if_pos hlen]

theorem parse_eleven (bs ds : List Nat) (hlen : bs.length = 11)
    (hds : toDigits bs = some ds) :
    parse bs =
      (if first_pass ds then
        if second_pass ds then
          match check_kind (ds.getD 2 0) with
          | .error e => .error e
          | .ok kind =>
            if ds.getD 0 0 ≤ 3 then
              if is_valid_date (ds.getD 0 0 * 10 + ds.getD 1 0)
                  (kind.get_base_month (ds.getD 2 0 * 10 + ds.getD 3 0))
                  (ds.getD 4 0 * 10 + ds.getD 5 0) then
                .ok (.FNumber ⟨kind, ds⟩)
              else .error .InvalidDate
            else if ds.getD 0 0 ≤ 7 then
              if is_valid_date (ds.getD 0 0 * 10 + ds.getD 1 0 - 40)
                  (kind.get_base_month (ds.getD 2 0 * 10 + ds.getD 3 0))
                  (ds.getD 4 0 * 10 + ds.getD 5 0) then
                .ok (.DNumber ⟨kind, ds⟩)
              else .error .InvalidDate
            else .error .InvalidDate
        else .error .InvalidChecksum
      else .error .InvalidChecksum) := by
  unfold parse
  simp only [TIN_LENGTH, ORG_LENGTH]
  rw [if_neg (by omega), hds]
  dsimp only
  rw [if_neg (by omega)]

theorem parse_eleven_cs_fail (bs ds : List Nat) (hlen : bs.length = 11)
    (hds : toDigits bs = some ds) (h : ¬(first_pass ds ∧ second_pass ds)) :
    parse bs = .error .InvalidChecksum := by
  rw [parse_eleven bs ds hlen hds]
  by_cases h1 : first_pass ds
  · have h2 : ¬ second_pass ds := fun h2 => h ⟨h1, h2⟩
    rw [if_pos h1, if_neg h2]
  · rw [if_neg h1]

theorem parse_eleven_kind_err (bs ds : List Nat) (e : NorwegianTinError)
    (hlen : bs.length = 11) (hds : toDigits bs = some ds)
    (h1 : first_pass ds) (h2 : second_pass ds)
    (hk : check_kind (ds.getD 2 0) = .error e) : parse bs = .error e := by
  rw [parse_eleven bs ds hlen hds, if_pos h1, if_pos h2, hk]

theorem parse_eleven_kind (bs ds : List Nat) (k : PersonKind)
    (hlen : bs.length = 11) (hds : toDigits bs = some ds)
    (h1 : first_pass ds) (h2 : second_pass ds)
    (hk : check_kind (ds.getD 2 0) = .ok k) :
    parse bs =
      (if ds.getD 0 0 ≤ 3 then
        if is_valid_date (ds.getD 0 0 * 10 + ds.getD 1 0)
            (k.get_base_month (ds.getD 2 0 * 10 + ds.getD 3 0))
            (ds.getD 4 0 * 10 + ds.getD 5 0) then
          .ok (.FNumber ⟨k, ds⟩)
        else .error .InvalidDate
      else if ds.getD 0 0 ≤ 7 then
        if is_valid_date (ds.getD 0 0 * 10 + ds.getD 1 0 - 40)
            (k.get_base_month (ds.getD 2 0 * 10 + ds.getD 3 0))
            (ds.getD 4 0 * 10 + ds.getD 5 0) then
          .ok (.DNumber ⟨k, ds⟩)
        else .error .InvalidDate
      else .error .InvalidDate) := by
  rw [parse_eleven bs ds hlen hds, if_pos h1, if_pos h2, hk]

theorem parse_ok_cases (bs : List Nat) (t : NorwegianTin) (h : parse bs = .ok t) :
    toDigits bs = some t.get_value ∧
    ((bs.length = 9 ∧ ∃ o : OrgNumber, t = .OrgNumber o) ∨
     (bs.length = 11 ∧ ∃ p : PersonNumber, t = .FNumber p ∨ t = .DNumber p)) := by
  by_cases h11 : bs.length = 11
  · cases hds : toDigits bs with
    | none => rw [parse_nonnum_err bs (Or.inl h11) hds] at h; simp at h
    | some ds =>
      by_cases hcs : first_pass ds ∧ second_pass ds
      · cases hk : check_kind (ds.getD 2 0) with
        | error e =>
          rw [parse_eleven_kind_err bs ds e h11 hds hcs.1 hcs.2 hk] at h
          simp at h
        | ok kind =>
          rw [parse_eleven_kind bs ds kind h11 hds hcs.1 hcs.2 hk] at h
          split_ifs at h <;>
            first
            | (simp at h; done)
            | (simp only [Except.ok.injEq] at h
               subst h
               first
               | exact ⟨rfl, Or.inr ⟨h11, ⟨kind, ds⟩, Or.inl rfl⟩⟩
               | exact ⟨rfl, Or.inr ⟨h11, ⟨kind, ds⟩, Or.inr rfl⟩⟩)
      · rw [parse_eleven_cs_fail bs ds h11 hds hcs] at h; simp at h
  · by_cases h9 : bs.length = 9
    · cases hds : toDigits bs with
      | none => rw [parse_nonnum_err bs (Or.inr h9) hds] at h; simp at h
      | some ds =>
        rw [parse_nine bs ds h9 hds] at h
        split_ifs at h <;>
          first
          | (simp at h; done)
          | (simp only [Except.ok.injEq] at h
             subst h
             exact ⟨rfl, Or.inl ⟨h9, ⟨ds⟩, rfl⟩⟩)
    · rw [parse_len_err bs h11 h9] at h; simp at h

theorem check_kind_error (m : Nat) (e : NorwegianTinError)
    (h : check_kind m = .error e) : e = .InvalidDate := by
  unfold check_kind at h
  split_ifs at h <;> simp_all

theorem check_kind_ok_band (m : Nat) (k : PersonKind) (h : check_kind m = .ok k) :
    (k = .Normal ∧ m ≤ 1) ∨ (k = .HNumber ∧ 4 ≤ m ∧ m ≤ 5) ∨
    (k = .Anonymous ∧ 6 ≤ m ∧ m ≤ 7) ∨ (k = .Synthetic ∧ 8 ≤ m ∧ m ≤ 9) := by
  unfold check_kind at h
  split_ifs at h <;> simp_all

theorem is_valid_date_eq (d m y : Nat) (hy : y < 100) :
    is_valid_date d m y =
      decide (1 ≤ m ∧ m ≤ 12 ∧ 1 ≤ d ∧ d ≤ (days_in_month m y).getD 0) := by
  unfold is_valid_date
  split_ifs with h
  · rcases h with h | h | h | h <;> simp <;> omega
  · push_neg at h
    obtain ⟨h1, h2, h3, _⟩ := h
    have hm12 : 1 ≤ m ∧ m ≤ 12 := by omega
    interval_cases m <;> simp [days_in_month] <;> omega

theorem getD_le9 (bs ds : List Nat) (hds : toDigits bs = some ds) (i : Nat) :
    ds.getD i 0 ≤ 9 := by
  rcases Nat.lt_or_ge i ds.length with h | h
  · rw [List.getD_eq_getElem ds 0 h]
    exact toDigits_le9 bs ds hds _ (List.getElem_mem h)
  · rw [List.getD_eq_default ds 0 h]
    exact Nat.zero_le 9

/-! The claims. -/

/-- Claim C1: for every 11-digit all-numeric input, checksum validation
passes if and only if both passes succeed (first pass window `0..=3`,
second pass exact 0); if either fails the result is `InvalidChecksum`.
The four listed inputs (digit strings 11010000000, 11010000019,
11010000027, 11010000035, given as byte lists) all parse successfully,
showing four valid values of digit 9 over one base sequence. -/
theorem claim_C1 :
    (∀ bs ds : List Nat, bs.length = 11 → toDigits bs = some ds →
      (parse bs = .error .InvalidChecksum ↔ ¬(first_pass ds ∧ second_pass ds))) ∧
    parse [49, 49, 48, 49, 48, 48, 48, 48, 48, 48, 48] =
      .ok (.FNumber ⟨.Normal, [1, 1, 0, 1, 0, 0, 0, 0, 0, 0, 0]⟩) ∧
    parse [49, 49, 48, 49, 48, 48, 48, 48, 48, 49, 57] =
      .ok (.FNumber ⟨.Normal, [1, 1, 0, 1, 0, 0, 0, 0, 0, 1, 9]⟩) ∧
    parse [49, 49, 48, 49, 48, 48, 48, 48, 48, 50, 55] =
      .ok (.FNumber ⟨.Normal, [1, 1, 0, 1, 0, 0, 0, 0, 0, 2, 7]⟩) ∧
    parse [49, 49, 48, 49, 48, 48, 48, 48, 48, 51, 53] =
      .ok (.FNumber ⟨.Normal, [1, 1, 0, 1, 0, 0, 0, 0, 0, 3, 5]⟩) := by
  refine ⟨?_, by decide, by decide, by decide, by decide⟩
  intro bs ds hlen hds
  by_cases hp : first_pass ds ∧ second_pass ds
  · have hne : parse bs ≠ .error .InvalidChecksum := by
      intro hcs
      cases hk : check_kind (ds.getD 2 0) with
      | error e =>
        rw [parse_eleven_kind_err bs ds e hlen hds hp.1 hp.2 hk] at hcs
        have he := check_kind_error _ _ hk
        subst he
        simp at hcs
      | ok kind =>
        rw [parse_eleven_kind bs ds kind hlen hds hp.1 hp.2 hk] at hcs
        split_ifs at hcs <;> simp at hcs
    simp [hne, hp]
  · rw [parse_eleven_cs_fail bs ds hlen hds hp]
    simp [hp]

/-- Witness for C1 at the all-ones string 11111111111, whose checksums
fail. -/
theorem claim_C1_witness :
    parse (List.replicate 11 49) = .error .InvalidChecksum ↔
      ¬(first_pass (List.replicate 11 1) ∧ second_pass (List.replicate 11 1)) :=
  claim_C1.1 (List.replicate 11 49) (List.replicate 11 1) (by decide) (by decide)

/-- Claim C2: for every 9-digit all-numeric input, parsing succeeds as
the organization variant if and only if, with `r` the weighted remainder
of the first 8 digits and `c = (11 - r) % 11`, both `c` is not 10 and
digit 8 equals `c`; otherwise the result is `InvalidChecksum`.  The byte
list of 905661833 parses as an organization identifier and that of
905661834 fails with `InvalidChecksum`. -/
theorem claim_C2 :
    (∀ bs ds : List Nat, bs.length = 9 → toDigits bs = some ds →
      (((11 - calculate_checksum (ds.take 8) SEQUENCE_ORG_CHECKSUM_DIGITS) % 11 ≠ 10 ∧
        ds.getD 8 0 = (11 - calculate_checksum (ds.take 8) SEQUENCE_ORG_CHECKSUM_DIGITS) % 11 →
          parse bs = .ok (.OrgNumber ⟨ds⟩)) ∧
       ((11 - calculate_checksum (ds.take 8) SEQUENCE_ORG_CHECKSUM_DIGITS) % 11 = 10 ∨
        ds.getD 8 0 ≠ (11 - calculate_checksum (ds.take 8) SEQUENCE_ORG_CHECKSUM_DIGITS) % 11 →
          parse bs = .error .InvalidChecksum))) ∧
    parse [57, 48, 53, 54, 54, 49, 56, 51, 51] =
      .ok (.OrgNumber ⟨[9, 0, 5, 6, 6, 1, 8, 3, 3]⟩) ∧
    parse [57, 48, 53, 54, 54, 49, 56, 51, 52] = .error .InvalidChecksum := by
  refine ⟨?_, by decide, by decide⟩
  intro bs ds hlen hds
  constructor
  · rintro ⟨hne, heq⟩
    rw [parse_nine bs ds hlen hds, if_neg hne, if_pos heq.symm]
  · intro hbad
    rw [parse_nine bs ds hlen hds]
    by_cases h10 : (11 - calculate_checksum (ds.take 8) SEQUENCE_ORG_CHECKSUM_DIGITS) % 11 = 10
    · rw [if_pos h10]
    · rcases hbad with hbad | hbad
      · exact absurd hbad h10
      · rw [if_neg h10, if_neg (fun hh => hbad hh.symm)]

/-- Witness for C2 at the valid organization number 905661833. -/
theorem claim_C2_witness :
    parse [57, 48, 53, 54, 54, 49, 56, 51, 51] =
      .ok (.OrgNumber ⟨[9, 0, 5, 6, 6, 1, 8, 3, 3]⟩) :=
  (claim_C2.1 [57, 48, 53, 54, 54, 49, 56, 51, 51] [9, 0, 5, 6, 6, 1, 8, 3, 3]
    (by decide) (by decide)).1 ⟨by decide, by decide⟩

/-- Claim C3: for every 11-digit input that passes both checksums and
whose category lookup succeeds, leading day digit 0-3 gives the
birth-number variant with the day used as-is, 4-7 gives the residence
variant with day - 40, and 8-9 gives `InvalidDate`; in the first two
cases the (adjusted) day must be at least 1 and at most the month's day
count (31/30/28 table, February 29 exactly when the two-digit year mod 4
is 0) and the offset-adjusted month must be 1-12, otherwise the result
is `InvalidDate`; in particular the all-zeros string is rejected with
`InvalidDate`. -/
theorem claim_C3 :
    (∀ bs ds : List Nat, ∀ k : PersonKind, bs.length = 11 → toDigits bs = some ds →
      first_pass ds → second_pass ds → check_kind (ds.getD 2 0) = .ok k →
      ((ds.getD 0 0 ≤ 3 →
        parse bs =
          if 1 ≤ k.get_base_month (ds.getD 2 0 * 10 + ds.getD 3 0) ∧
              k.get_base_month (ds.getD 2 0 * 10 + ds.getD 3 0) ≤ 12 ∧
              1 ≤ ds.getD 0 0 * 10 + ds.getD 1 0 ∧
              ds.getD 0 0 * 10 + ds.getD 1 0 ≤
                (days_in_month (k.get_base_month (ds.getD 2 0 * 10 + ds.getD 3 0))
                  (ds.getD 4 0 * 10 + ds.getD 5 0)).getD 0 then
            .ok (.FNumber ⟨k, ds⟩)
          else .error .InvalidDate) ∧
       (4 ≤ ds.getD 0 0 → ds.getD 0 0 ≤ 7 →
        parse bs =
          if 1 ≤ k.get_base_month (ds.getD 2 0 * 10 + ds.getD 3 0) ∧
              k.get_base_month (ds.getD 2 0 * 10 + ds.getD 3 0) ≤ 12 ∧
              1 ≤ ds.getD 0 0 * 10 + ds.getD 1 0 - 40 ∧
              ds.getD 0 0 * 10 + ds.getD 1 0 - 40 ≤
                (days_in_month (k.get_base_month (ds.getD 2 0 * 10 + ds.getD 3 0))
                  (ds.getD 4 0 * 10 + ds.getD 5 0)).getD 0 then
            .ok (.DNumber ⟨k, ds⟩)
          else .error .InvalidDate) ∧
       (8 ≤ ds.getD 0 0 → parse bs = .error .InvalidDate))) ∧
    (∀ y : Nat, (days_in_month 2 y = some 29 ↔ y % 4 = 0) ∧
      (days_in_month 2 y = some 28 ↔ y % 4 ≠ 0)) ∧
    parse (List.replicate 11 48) = .error .InvalidDate := by
  refine ⟨?_, ?_, by decide⟩
  · intro bs ds k hlen hds h1 h2 hk
    have hy : ds.getD 4 0 * 10 + ds.getD 5 0 < 100 := by
      have hy4 := getD_le9 bs ds hds 4
      have hy5 := getD_le9 bs ds hds 5
      omega
    refine ⟨?_, ?_, ?_⟩
    · intro hband
      rw [parse_eleven_kind bs ds k hlen hds h1 h2 hk, if_pos hband]
      by_cases hp : 1 ≤ k.get_base_month (ds.getD 2 0 * 10 + ds.getD 3 0) ∧
          k.get_base_month (ds.getD 2 0 * 10 + ds.getD 3 0) ≤ 12 ∧
          1 ≤ ds.getD 0 0 * 10 + ds.getD 1 0 ∧
          ds.getD 0 0 * 10 + ds.getD 1 0 ≤
            (days_in_month (k.get_base_month (ds.getD 2 0 * 10 + ds.getD 3 0))
              (ds.getD 4 0 * 10 + ds.getD 5 0)).getD 0
      · have hv : is_valid_date (ds.getD 0 0 * 10 + ds.getD 1 0)
            (k.get_base_month (ds.getD 2 0 * 10 + ds.getD 3 0))
            (ds.getD 4 0 * 10 + ds.getD 5 0) = true := by
          rw [is_valid_date_eq _ _ _ hy]
          exact decide_eq_true hp
        rw [if_pos hv, if_pos hp]
      · have hv : ¬(is_valid_date (ds.getD 0 0 * 10 + ds.getD 1 0)
            (k.get_base_month (ds.getD 2 0 * 10 + ds.getD 3 0))
            (ds.getD 4 0 * 10 + ds.getD 5 0) = true) := by
          rw [is_valid_date_eq _ _ _ hy]
          simpa using hp
        rw [if_neg hv, if_neg hp]
    · intro hband4 hband7
      rw [parse_eleven_kind bs ds k hlen hds h1 h2 hk, if_neg (by omega), if_pos hband7]
      by_cases hp : 1 ≤ k.get_base_month (ds.getD 2 0 * 10 + ds.getD 3 0) ∧
          k.get_base_month (ds.getD 2 0 * 10 + ds.getD 3 0) ≤ 12 ∧
          1 ≤ ds.getD 0 0 * 10 + ds.getD 1 0 - 40 ∧
          ds.getD 0 0 * 10 + ds.getD 1 0 - 40 ≤
            (days_in_month (k.get_base_month (ds.getD 2 0 * 10 + ds.getD 3 0))
              (ds.getD 4 0 * 10 + ds.getD 5 0)).getD 0
      · have hv : is_valid_date (ds.getD 0 0 * 10 + ds.getD 1 0 - 40)
            (k.get_base_month (ds.getD 2 0 * 10 + ds.getD 3 0))
            (ds.getD 4 0 * 10 + ds.getD 5 0) = true := by
          rw [is_valid_date_eq _ _ _ hy]
          exact decide_eq_true hp
        rw [if_pos hv, if_pos hp]
      · have hv : ¬(is_valid_date (ds.getD 0 0 * 10 + ds.getD 1 0 - 40)
            (k.get_base_month (ds.getD 2 0 * 10 + ds.getD 3 0))
            (ds.getD 4 0 * 10 + ds.getD 5 0) = true) := by
          rw [is_valid_date_eq _ _ _ hy]
          simpa using hp
        rw [if_neg hv, if_neg hp]
    · intro hband8
      rw [parse_eleven_kind bs ds k hlen hds h1 h2 hk, if_neg (by omega), if_neg (by omega)]
  · intro y
    unfold days_in_month
    by_cases h4 : y % 4 = 0
    · rw [if_pos h4]
      simp [h4]
    · rw [if_neg h4]
      simp [h4]

/-- Witness for C3 at the valid birth number 16057902284. -/
theorem claim_C3_witness :
    parse [49, 54, 48, 53, 55, 57, 48, 50, 50, 56, 52] =
      .ok (.FNumber ⟨.Normal, [1, 6, 0, 5, 7, 9, 0, 2, 2, 8, 4]⟩) :=
  (claim_C3.1 [49, 54, 48, 53, 55, 57, 48, 50, 50, 56, 52]
      [1, 6, 0, 5, 7, 9, 0, 2, 2, 8, 4] PersonKind.Normal
      (by decide) (by decide) (by decide) (by decide) (by decide)).1 (by decide)

/-- Claim C4: for 11-digit inputs passing both checksums the category is
determined solely by digit 2: 0/1 give Normal (ordinary), 4/5 HNumber
(temporary work permit), 6/7 Anonymous, 8/9 Synthetic, and 2/3 make
parsing fail with `InvalidDate`. -/
theorem claim_C4 :
    (check_kind 0 = .ok .Normal ∧ check_kind 1 = .ok .Normal ∧
     check_kind 2 = .error .InvalidDate ∧ check_kind 3 = .error .InvalidDate ∧
     check_kind 4 = .ok .HNumber ∧ check_kind 5 = .ok .HNumber ∧
     check_kind 6 = .ok .Anonymous ∧ check_kind 7 = .ok .Anonymous ∧
     check_kind 8 = .ok .Synthetic ∧ check_kind 9 = .ok .Synthetic) ∧
    (∀ bs ds : List Nat, bs.length = 11 → toDigits bs = some ds →
      first_pass ds → second_pass ds →
      ((ds.getD 2 0 = 2 ∨ ds.getD 2 0 = 3) → parse bs = .error .InvalidDate) ∧
      (∀ t k, parse bs = .ok t → check_kind (ds.getD 2 0) = .ok k →
        t.get_kind = k)) := by
  refine ⟨by decide, ?_⟩
  intro bs ds hlen hds h1 h2
  constructor
  · intro h23
    have hk : check_kind (ds.getD 2 0) = .error .InvalidDate := by
      rcases h23 with h | h <;> rw [h] <;> decide
    exact parse_eleven_kind_err bs ds _ hlen hds h1 h2 hk
  · intro t k hp hk
    rw [parse_eleven_kind bs ds k hlen hds h1 h2 hk] at hp
    split_ifs at hp <;>
      first
      | (simp at hp; done)
      | (simp only [Except.ok.injEq] at hp
         subst hp
         rfl)

/-- Witness for C4 at the H-number 22517149261 (digit 2 is 5). -/
theorem claim_C4_witness :
    NorwegianTin.get_kind (.FNumber ⟨.HNumber, [2, 2, 5, 1, 7, 1, 4, 9, 2, 6, 1]⟩) =
      PersonKind.HNumber :=
  (claim_C4.2 [50, 50, 53, 49, 55, 49, 52, 57, 50, 54, 49] [2, 2, 5, 1, 7, 1, 4, 9, 2, 6, 1]
      (by decide) (by decide) (by decide) (by decide)).2
    (.FNumber ⟨.HNumber, [2, 2, 5, 1, 7, 1, 4, 9, 2, 6, 1]⟩) PersonKind.HNumber
    (by decide) (by decide)

/-- Claim C5: error precedence.  Any input whose length is neither 9 nor
11 (including the empty list) fails with `InvalidLength` regardless of
content; any input of length 9 or 11 containing an out-of-range byte
fails with `NonNumericValue` before any checksum computation; and for
11-digit numeric inputs a checksum failure is decided before any
date/category logic, yielding `InvalidChecksum`. -/
theorem claim_C5 :
    (∀ bs : List Nat, bs.length ≠ 9 → bs.length ≠ 11 →
      parse bs = .error .InvalidLength) ∧
    parse [] = .error .InvalidLength ∧
    (∀ bs : List Nat, bs.length = 9 ∨ bs.length = 11 →
      (∃ b ∈ bs, b < 48 ∨ 57 < b) → parse bs = .error .NonNumericValue) ∧
    (∀ bs ds : List Nat, bs.length = 11 → toDigits bs = some ds →
      ¬(first_pass ds ∧ second_pass ds) → parse bs = .error .InvalidChecksum) := by
  refine ⟨?_, by decide, ?_, ?_⟩
  · intro bs h9 h11
    exact parse_len_err bs h11 h9
  · intro bs hlen hex
    exact parse_nonnum_err bs hlen.symm (toDigits_eq_none bs hex)
  · intro bs ds hlen hds hcs
    exact parse_eleven_cs_fail bs ds hlen hds hcs

/-- Witness for C5: a length-1 input gives `InvalidLength`, and a
length-9 input with a letter byte gives `NonNumericValue`. -/
theorem claim_C5_witness :
    parse [49] = .error .InvalidLength ∧
    parse [49, 97, 49, 49, 49, 49, 49, 49, 49] = .error .NonNumericValue :=
  ⟨claim_C5.1 [49] (by decide) (by decide),
   claim_C5.2.2.1 [49, 97, 49, 49, 49, 49, 49, 49, 49] (by decide)
     ⟨97, by decide, by decide⟩⟩

/-- Counterexample to C6 as stated: the all-zeros 11-character string
passes both checksums and fails with `InvalidDate`, not
`InvalidChecksum`. -/
theorem claim_C6_counterexample :
    parse (List.replicate 11 48) = .error .InvalidDate ∧
    NorwegianTinError.InvalidDate ≠ NorwegianTinError.InvalidChecksum := by
  decide

/-- Claim C6 (amended): for every 11-character string of one repeated
digit d with 1 ≤ d ≤ 9 the result is `InvalidChecksum`; the all-zeros
string instead passes both checksums and fails with `InvalidDate`. -/
theorem claim_C6 :
    (∀ d : Nat, 1 ≤ d → d ≤ 9 →
      parse (List.replicate 11 (48 + d)) = .error .InvalidChecksum) ∧
    parse (List.replicate 11 48) = .error .InvalidDate := by
  refine ⟨?_, by decide⟩
  intro d h1 h9
  interval_cases d <;> decide

/-- Witness for C6 at the all-nines string. -/
theorem claim_C6_witness :
    parse (List.replicate 11 (48 + 9)) = .error .InvalidChecksum :=
  claim_C6.1 9 (by decide) (by decide)

/-- Counterexample to C7 as stated: the all-zeros input passes both
checksum passes and its category lookup succeeds (digit 2 is 0, category
Normal), yet the reconstructed month is 0, outside 1-12. -/
theorem claim_C7_counterexample :
    toDigits (List.replicate 11 48) = some (List.replicate 11 0) ∧
    first_pass (List.replicate 11 0) ∧ second_pass (List.replicate 11 0) ∧
    check_kind ((List.replicate 11 (0 : Nat)).getD 2 0) = .ok .Normal ∧
    ¬(1 ≤ PersonKind.get_base_month .Normal
        ((List.replicate 11 (0 : Nat)).getD 2 0 * 10 +
          (List.replicate 11 (0 : Nat)).getD 3 0)) := by
  decide

/-- Claim C7 (amended): a successful category lookup on the month tens
digit guarantees that subtracting the category offset cannot underflow
(the offset is at most the raw month field) and that the reconstructed
month is at most 19 — but not that it lies in 1-12; months 0 and 13-19
can survive the lookup and are rejected only by date validation. -/
theorem claim_C7 :
    ∀ d2 d3 : Nat, ∀ k : PersonKind, d3 ≤ 9 → check_kind d2 = .ok k →
      kind_offset k ≤ d2 * 10 + d3 ∧
      PersonKind.get_base_month k (d2 * 10 + d3) = d2 * 10 + d3 - kind_offset k ∧
      PersonKind.get_base_month k (d2 * 10 + d3) ≤ 19 ∧
      (∀ d y : Nat, (PersonKind.get_base_month k (d2 * 10 + d3) = 0 ∨
          12 < PersonKind.get_base_month k (d2 * 10 + d3)) →
        is_valid_date d (PersonKind.get_base_month k (d2 * 10 + d3)) y = false) := by
  intro d2 d3 k h3 hk
  have hband := check_kind_ok_band _ _ hk
  have hoff : kind_offset k ≤ d2 * 10 + d3 ∧
      PersonKind.get_base_month k (d2 * 10 + d3) = d2 * 10 + d3 - kind_offset k ∧
      PersonKind.get_base_month k (d2 * 10 + d3) ≤ 19 := by
    rcases hband with ⟨rfl, h⟩ | ⟨rfl, h⟩ | ⟨rfl, h⟩ | ⟨rfl, h⟩ <;>
      simp only [PersonKind.get_base_month, kind_offset, Nat.sub_zero, true_and, and_true] <;>
      omega
  refine ⟨hoff.1, hoff.2.1, hoff.2.2, ?_⟩
  intro d y hbad
  unfold is_valid_date
  rcases hbad with hb | hb
  · rw [if_pos (Or.inl hb)]
  · rw [if_pos (Or.inr (Or.inl hb))]

/-- Witness for C7 at digit 2 = 1, digit 3 = 3 (category Normal, raw
month 13, which exceeds 12 and is rejected by date validation). -/
theorem claim_C7_witness :
    kind_offset PersonKind.Normal ≤ 1 * 10 + 3 ∧
    PersonKind.get_base_month PersonKind.Normal (1 * 10 + 3) =
      1 * 10 + 3 - kind_offset PersonKind.Normal ∧
    PersonKind.get_base_month PersonKind.Normal (1 * 10 + 3) ≤ 19 ∧
    is_valid_date 5 (PersonKind.get_base_month PersonKind.Normal (1 * 10 + 3)) 7 = false := by
  obtain ⟨a, b, c, h⟩ := claim_C7 1 3 PersonKind.Normal (by decide) (by decide)
  exact ⟨a, b, c, h 5 7 (by decide)⟩

/-- Claim C8: round-trip — whenever `parse` succeeds with value t,
mapping the stored digits back to ASCII yields exactly the input, and
re-parsing that canonical string succeeds with the identical value. -/
theorem claim_C8 :
    ∀ bs : List Nat, ∀ t : NorwegianTin, parse bs = .ok t →
      into_string t = bs ∧ parse (into_string t) = .ok t := by
  intro bs t hp
  obtain ⟨hds, -⟩ := parse_ok_cases bs t hp
  have hback : into_string t = bs := toDigits_map_back bs t.get_value hds
  exact ⟨hback, by rw [hback]; exact hp⟩

/-- Witness for C8 at the valid birth number 16057902284. -/
theorem claim_C8_witness :
    into_string (.FNumber ⟨.Normal, [1, 6, 0, 5, 7, 9, 0, 2, 2, 8, 4]⟩) =
      [49, 54, 48, 53, 55, 57, 48, 50, 50, 56, 52] ∧
    parse (into_string (.FNumber ⟨.Normal, [1, 6, 0, 5, 7, 9, 0, 2, 2, 8, 4]⟩)) =
      .ok (.FNumber ⟨.Normal, [1, 6, 0, 5, 7, 9, 0, 2, 2, 8, 4]⟩) :=
  claim_C8 [49, 54, 48, 53, 55, 57, 48, 50, 50, 56, 52]
    (.FNumber ⟨.Normal, [1, 6, 0, 5, 7, 9, 0, 2, 2, 8, 4]⟩) (by decide)

/-- Claim C9: parsing is total — every input yields either a classified
value or one of the four errors — and the u8 subtractions are safe: the
category offset never exceeds the raw month field once the category
lookup has succeeded, the day field is at least 40 whenever its leading
digit is in the 4-7 band, and the byte-to-digit subtraction never
underflows for accepted bytes. -/
theorem claim_C9 :
    (∀ bs : List Nat, (∃ t, parse bs = .ok t) ∨ (∃ e, parse bs = .error e)) ∧
    (∀ d2 d3 : Nat, ∀ k : PersonKind, check_kind d2 = .ok k →
      kind_offset k ≤ d2 * 10 + d3) ∧
    (∀ d0 d1 : Nat, 4 ≤ d0 → 40 ≤ d0 * 10 + d1) ∧
    (∀ b : Nat, 48 ≤ b → b - 48 + 48 = b) := by
  refine ⟨?_, ?_, ?_, ?_⟩
  · intro bs
    cases h : parse bs with
    | ok t => exact Or.inl ⟨t, rfl⟩
    | error e => exact Or.inr ⟨e, rfl⟩
  · intro d2 d3 k hk
    rcases check_kind_ok_band _ _ hk with ⟨rfl, h⟩ | ⟨rfl, h⟩ | ⟨rfl, h⟩ | ⟨rfl, h⟩ <;>
      simp only [kind_offset] <;> omega
  · intro d0 d1 h4
    omega
  · intro b hb
    omega

/-- Witness for C9: offset bound for a Synthetic lookup, day bound in
the 4-7 band, and digit subtraction round-trip for byte 97. -/
theorem claim_C9_witness :
    kind_offset PersonKind.Synthetic ≤ 8 * 10 + 0 ∧
    (40 : Nat) ≤ 7 * 10 + 0 ∧ (97 : Nat) - 48 + 48 = 97 :=
  ⟨claim_C9.2.1 8 0 PersonKind.Synthetic (by decide), claim_C9.2.2.1 7 0 (by decide),
   claim_C9.2.2.2 97 (by decide)⟩

/-- Claim C10: every successfully parsed value stores numeric digit
values 0-9 (not ASCII codes), with exactly 11 digits for the two
personal variants and exactly 9 for the organization variant. -/
theorem claim_C10 :
    ∀ bs : List Nat, ∀ t : NorwegianTin, parse bs = .ok t →
      (∀ d ∈ t.get_value, d ≤ 9) ∧
      (∀ p : PersonNumber, t = .FNumber p ∨ t = .DNumber p →
        t.get_value.length = 11) ∧
      (∀ o : OrgNumber, t = .OrgNumber o → t.get_value.length = 9) := by
  intro bs t hp
  obtain ⟨hds, hcase⟩ := parse_ok_cases bs t hp
  refine ⟨toDigits_le9 bs t.get_value hds, ?_, ?_⟩
  · intro p hpt
    rcases hcase with ⟨h9, o, rfl⟩ | ⟨h11, q, hq⟩
    · rcases hpt with h | h <;> simp at h
    · exact (toDigits_length bs t.get_value hds).trans h11
  · intro o hot
    rcases hcase with ⟨h9, o2, rfl⟩ | ⟨h11, q, hq⟩
    · exact (toDigits_length bs _ hds).trans h9
    · rcases hq with rfl | rfl <;> simp at hot

/-- Witness for C10 at the organization number 905661833 (stored value
has length 9). -/
theorem claim_C10_witness :
    (NorwegianTin.get_value (.OrgNumber ⟨[9, 0, 5, 6, 6, 1, 8, 3, 3]⟩)).length = 9 :=
  (claim_C10 [57, 48, 53, 54, 54, 49, 56, 51, 51]
      (.OrgNumber ⟨[9, 0, 5, 6, 6, 1, 8, 3, 3]⟩) (by decide)).2.2
    ⟨[9, 0, 5, 6, 6, 1, 8, 3, 3]⟩ rfl
